import Mathlib

/-!
Verification of cmsstyle: colour lookup, overlay ownership, descriptors

A shallow embedding of `src/colorsets.H` (the Petroff palettes, `getPettroffColor`,
`getPettroffColorSet`), of `src/TCmsCanvas.H` (the canvas wrapper owning a logo
image and its pad) and of the descriptor globals and the property dispatcher of
`src/cmsstyle.H`, followed by the properties proved about them.

Conventions of the embedding:

* `std::string` is a Lean `String`, one `Char` for each `char`; positions count the
  elements of `String.data`. Every byte string is such a string, and the literals of
  the source are ASCII.
* `size_t` is a `Nat` reduced modulo `2 ^ 64` wherever the source can wrap.
* whatever belongs to ROOT and not to this repository (the colour enumerators, the
  version macros, `TColor::GetColor`, `TColor::GetColorByName`) is a field of `Root`.
* a C++ exception is an `Except.error`.
-/

namespace cmsstyle

/-! ## The ROOT environment -/

/-- The pieces of ROOT that `colorsets.H` reads: version macros, the basic `EColor`
enumerators, the Petroff enumerators of ROOT 6.34 and the two `TColor` lookups. -/
structure Root where
  VERSION_CODE : Nat
  VERSION_MAJOR : Nat
  VERSION_MINOR : Nat
  GetColor : String → Int
  GetColorByName : String → Int
  kWhite : Int
  kBlack : Int
  kGray : Int
  kRed : Int
  kGreen : Int
  kBlue : Int
  kYellow : Int
  kMagenta : Int
  kCyan : Int
  kOrange : Int
  kSpring : Int
  kTeal : Int
  kAzure : Int
  kViolet : Int
  kPink : Int
  kP6Blue : Int
  kP6Yellow : Int
  kP6Red : Int
  kP6Grape : Int
  kP6Gray : Int
  kP6Violet : Int
  kP8Blue : Int
  kP8Orange : Int
  kP8Red : Int
  kP8Pink : Int
  kP8Green : Int
  kP8Cyan : Int
  kP8Azure : Int
  kP8Gray : Int
  kP10Blue : Int
  kP10Yellow : Int
  kP10Red : Int
  kP10Gray : Int
  kP10Violet : Int
  kP10Brown : Int
  kP10Orange : Int
  kP10Green : Int
  kP10Ash : Int
  kP10Cyan : Int

/-- The macro `ROOT_VERSION(a,b,c)` of ROOT: `((a) << 16) + ((b) << 8) + (c)`. -/
def ROOT_VERSION (a b c : Nat) : Nat := a * 2 ^ 16 + b * 2 ^ 8 + c

/-! ## The three palettes (`colorsets.H`, lines 23-123) -/

namespace p6

def kBlue (R : Root) : Int :=
  if R.VERSION_CODE ≥ ROOT_VERSION 6 34 0 then R.kP6Blue else R.GetColor "#5790fc"

def kYellow (R : Root) : Int :=
  if R.VERSION_CODE ≥ ROOT_VERSION 6 34 0 then R.kP6Yellow else R.GetColor "#f89c20"

def kRed (R : Root) : Int :=
  if R.VERSION_CODE ≥ ROOT_VERSION 6 34 0 then R.kP6Red else R.GetColor "#e42536"

def kGrape (R : Root) : Int :=
  if R.VERSION_CODE ≥ ROOT_VERSION 6 34 0 then R.kP6Grape else R.GetColor "#964a8b"

def kGray (R : Root) : Int :=
  if R.VERSION_CODE ≥ ROOT_VERSION 6 34 0 then R.kP6Gray else R.GetColor "#9c9ca1"

def kViolet (R : Root) : Int :=
  if R.VERSION_CODE ≥ ROOT_VERSION 6 34 0 then R.kP6Violet else R.GetColor "#7a21dd"

end p6

namespace p8

def kBlue (R : Root) : Int :=
  if R.VERSION_CODE ≥ ROOT_VERSION 6 34 0 then R.kP8Blue else R.GetColor "#1845fb"

def kOrange (R : Root) : Int :=
  if R.VERSION_CODE ≥ ROOT_VERSION 6 34 0 then R.kP8Orange else R.GetColor "#ff5e02"

def kRed (R : Root) : Int :=
  if R.VERSION_CODE ≥ ROOT_VERSION 6 34 0 then R.kP8Red else R.GetColor "#c91f16"

def kPink (R : Root) : Int :=
  if R.VERSION_CODE ≥ ROOT_VERSION 6 34 0 then R.kP8Pink else R.GetColor "#c849a9"

def kGreen (R : Root) : Int :=
  if R.VERSION_CODE ≥ ROOT_VERSION 6 34 0 then R.kP8Green else R.GetColor "#adad7d"

def kCyan (R : Root) : Int :=
  if R.VERSION_CODE ≥ ROOT_VERSION 6 34 0 then R.kP8Cyan else R.GetColor "#86c8dd"

def kAzure (R : Root) : Int :=
  if R.VERSION_CODE ≥ ROOT_VERSION 6 34 0 then R.kP8Azure else R.GetColor "#578dff"

def kGray (R : Root) : Int :=
  if R.VERSION_CODE ≥ ROOT_VERSION 6 34 0 then R.kP8Gray else R.GetColor "#656364"

end p8

namespace p10

def kBlue (R : Root) : Int :=
  if R.VERSION_CODE ≥ ROOT_VERSION 6 34 0 then R.kP10Blue else R.GetColor "#3f90da"

def kYellow (R : Root) : Int :=
  if R.VERSION_CODE ≥ ROOT_VERSION 6 34 0 then R.kP10Yellow else R.GetColor "#ffa90e"

def kRed (R : Root) : Int :=
  if R.VERSION_CODE ≥ ROOT_VERSION 6 34 0 then R.kP10Red else R.GetColor "#bd1f01"

def kGray (R : Root) : Int :=
  if R.VERSION_CODE ≥ ROOT_VERSION 6 34 0 then R.kP10Gray else R.GetColor "#94a4a2"

def kViolet (R : Root) : Int :=
  if R.VERSION_CODE ≥ ROOT_VERSION 6 34 0 then R.kP10Violet else R.GetColor "#832db6"

def kBrown (R : Root) : Int :=
  if R.VERSION_CODE ≥ ROOT_VERSION 6 34 0 then R.kP10Brown else R.GetColor "#a96b59"

def kOrange (R : Root) : Int :=
  if R.VERSION_CODE ≥ ROOT_VERSION 6 34 0 then R.kP10Orange else R.GetColor "#e76300"

def kGreen (R : Root) : Int :=
  if R.VERSION_CODE ≥ ROOT_VERSION 6 34 0 then R.kP10Green else R.GetColor "#b9ac70"

def kAsh (R : Root) : Int :=
  if R.VERSION_CODE ≥ ROOT_VERSION 6 34 0 then R.kP10Ash else R.GetColor "#717581"

def kCyan (R : Root) : Int :=
  if R.VERSION_CODE ≥ ROOT_VERSION 6 34 0 then R.kP10Cyan else R.GetColor "#92dadd"

end p10

/-! ## The fragment of `std::string` used by `getPettroffColor` -/

/-- Exceptions of the standard library that the modelled calls can throw. -/
inductive StdExn where
  | out_of_range
  deriving DecidableEq

/-- Number of values of `size_t`. -/
def SIZE_MOD : Nat := 2 ^ 64

/-- The constant `std::string::npos`, the largest `size_t`. -/
def npos : Nat := SIZE_MOD - 1

/-- Search for `pat` in the remainder `s` of a string whose consumed part has `pos`
elements: the position of the first match, `npos` when there is none. -/
def findAt (pat : List Char) : List Char → Nat → Nat
  | [], pos => if pat = [] then pos else npos
  | c :: cs, pos => if pat.isPrefixOf (c :: cs) then pos else findAt pat cs (pos + 1)

/-- The call `s.find(pat)`. -/
def find (s pat : String) : Nat := findAt pat.data s.data 0

/-- The call `s.substr(pos, n)`: throws when `pos` is past the end, otherwise the at
most `n` elements starting at `pos`. -/
def substr (s : String) (pos n : Nat) : Except StdExn String :=
  if pos > s.length then .error .out_of_range else .ok ⟨(s.data.drop pos).take n⟩

/-- The call `s.substr(pos)`, whose count defaults to `npos`. -/
def substrFrom (s : String) (pos : Nat) : Except StdExn String := substr s pos npos

/-- The call `s.c_str()` as the callee reads it: the elements before the first NUL. -/
def c_str (s : String) : String := ⟨s.data.takeWhile (fun c => c ≠ Char.ofNat 0)⟩

/-! ## `getPettroffColor` (`colorsets.H`, lines 149-200) -/

/-- The tail of `getPettroffColor` reached when the palette branch is skipped: the
lookup of a ROOT colour by name, `TColor::GetColorByName` from ROOT 6.32 on and the
hard-coded chain of basic colours before. -/
def rootColorByName (R : Root) (color : String) : Int :=
  if R.VERSION_MAJOR > 6 ∨ (R.VERSION_MINOR ≥ 32 ∧ R.VERSION_MAJOR = 6) then
    R.GetColorByName (c_str color)
  else if color = "kWhite" then R.kWhite
  else if color = "kGray" then R.kGray
  else if color = "kRed" then R.kRed
  else if color = "kGreen" then R.kGreen
  else if color = "kBlue" then R.kBlue
  else if color = "kYellow" then R.kYellow
  else if color = "kMagenta" then R.kMagenta
  else if color = "kCyan" then R.kCyan
  else if color = "kOrange" then R.kOrange
  else if color = "kSpring" then R.kSpring
  else if color = "kTeal" then R.kTeal
  else if color = "kAzure" then R.kAzure
  else if color = "kViolet" then R.kViolet
  else if color = "kPink" then R.kPink
  else R.kBlack

/-- The two positions computed at lines 150-158: `ic`, where the separator starts,
and `ic2`, where the member name starts. -/
def splitPositions (color : String) : Nat × Nat :=
  let ic := find color "::"
  if ic ≠ npos then
    (ic, (ic + 2) % SIZE_MOD)
  else
    let ic := find color "."
    (ic, (ic + 1) % SIZE_MOD)

/-- Lines 164-177: the colour of member `v` of palette `p`, `kBlack` when the pair is
not identified. -/
def paletteColor (R : Root) (p v : String) : Int :=
  if p = "p6" then
    if v = "kBlue" then p6.kBlue R
    else if v = "kYellow" then p6.kYellow R
    else if v = "kRed" then p6.kRed R
    else if v = "kGrape" then p6.kGrape R
    else if v = "kGray" then p6.kGray R
    else if v = "kViolet" then p6.kViolet R
    else R.kBlack
  else if p = "p8" then
    if v = "kBlue" then p8.kBlue R
    else if v = "kOrange" then p8.kOrange R
    else if v = "kRed" then p8.kRed R
    else if v = "kPink" then p8.kPink R
    else if v = "kGreen" then p8.kGreen R
    else if v = "kCyan" then p8.kCyan R
    else if v = "kAzure" then p8.kAzure R
    else if v = "kGray" then p8.kGray R
    else R.kBlack
  else if p = "p10" then
    if v = "kBlue" then p10.kBlue R
    else if v = "kYellow" then p10.kYellow R
    else if v = "kRed" then p10.kRed R
    else if v = "kGray" then p10.kGray R
    else if v = "kViolet" then p10.kViolet R
    else if v = "kBrown" then p10.kBrown R
    else if v = "kOrange" then p10.kOrange R
    else if v = "kGreen" then p10.kGreen R
    else if v = "kAsh" then p10.kAsh R
    else if v = "kCyan" then p10.kCyan R
    else R.kBlack
  else R.kBlack

/-- The function `getPettroffColor`. -/
def getPettroffColor (R : Root) (color : String) : Except StdExn Int :=
  let (ic, ic2) := splitPositions color
  if ic2 > 0 then do
    let v ← substrFrom color ic2
    let p ← substr color 0 ic
    pure (paletteColor R p v)
  else
    pure (rootColorByName R color)

/-! ## `getPettroffColorSet` (`colorsets.H`, lines 210-226) -/

/-- The loop `for (unsigned int i = 10; i<ncolors; ++i) dev->push_back(dev->at(i%10))`
with `k = ncolors - i` iterations still to run; `at` throws past the end. The counter
stays below `ncolors`, an `unsigned int`, so it cannot wrap. -/
def pushBackLoop : Nat → Nat → List Int → Except StdExn (List Int)
  | 0, _, dev => .ok dev
  | k + 1, i, dev =>
    match dev[i % 10]? with
    | some c => pushBackLoop k (i + 1) (dev ++ [c])
    | none => .error .out_of_range

/-- The function `getPettroffColorSet`; the result is the vector it allocates. -/
def getPettroffColorSet (R : Root) (ncolors : Nat) : Except StdExn (List Int) :=
  if ncolors < 7 then
    .ok [p6.kBlue R, p6.kYellow R, p6.kRed R, p6.kGrape R, p6.kGray R, p6.kViolet R]
  else if ncolors < 9 then
    .ok [p8.kBlue R, p8.kOrange R, p8.kRed R, p8.kPink R, p8.kGreen R, p8.kCyan R,
      p8.kAzure R, p8.kGray R]
  else
    pushBackLoop (ncolors - 10) 10
      [p10.kBlue R, p10.kYellow R, p10.kRed R, p10.kGray R, p10.kViolet R, p10.kBrown R,
        p10.kOrange R, p10.kGreen R, p10.kAsh R, p10.kCyan R]

/-! ## `TCmsCanvas` (`TCmsCanvas.H`)

Objects made by `new` are identified by the order of their creation, so an identity is
never reused, whatever the allocator does with addresses. ROOT's own drawing state
(`gPad`, lists of primitives) is not part of the model: the calls into it are recorded
in the order the source makes them. -/

/-- Identity of an object created by `new`. -/
abbrev ObjId := Nat

/-- The two kinds of object `AddCmsLogo` creates, with their constructor arguments;
`F` stands for `Float_t`. -/
inductive Obj (F : Type) where
  | TASImage (logofile : String)
  | TPad (name title : String) (x0 y0 x1 y1 : F)

/-- Behaviour the C++ standard leaves undefined. -/
inductive Fault where
  | deleteDead (p : ObjId)
  deriving DecidableEq

/-- The free store: `objs` lists every object created so far (an identity is an index
into it), `live` the identities not yet deleted, `deleted` the `delete` expressions
executed, oldest first. -/
structure Heap (F : Type) where
  objs : List (Obj F)
  live : List ObjId
  deleted : List ObjId

/-- The expression `new T(...)`: a fresh identity for the object `o`. -/
def Heap.alloc {F : Type} (h : Heap F) (o : Obj F) : ObjId × Heap F :=
  (h.objs.length,
    { objs := h.objs ++ [o], live := h.live ++ [h.objs.length], deleted := h.deleted })

/-- The expression `delete p` for a non-null `p`; deleting an object that is not alive
is undefined behaviour. -/
def Heap.delete {F : Type} (h : Heap F) (p : ObjId) : Except Fault (Heap F) :=
  if p ∈ h.live then
    .ok { objs := h.objs, live := h.live.erase p, deleted := h.deleted ++ [p] }
  else
    .error (.deleteDead p)

/-- The statement `if (p!=nullptr) delete p;`. -/
def Heap.deleteIfSet {F : Type} (h : Heap F) : Option ObjId → Except Fault (Heap F)
  | none => .ok h
  | some p => h.delete p

/-- The data members of `TCmsCanvas`; `none` is `nullptr`. -/
structure TCmsCanvas where
  CMS_logo : Option ObjId
  pad_logo : Option ObjId
  deriving DecidableEq

/-- A call into ROOT made by `AddCmsLogo`. -/
inductive RootCall where
  | padDraw (pad : ObjId)
  | padCd (pad : ObjId)
  | imageDraw (image : ObjId) (option : String)
  | padModified (pad : ObjId)
  | oldpadCd
  deriving DecidableEq

/-- The free store, one wrapper and the calls made into ROOT so far. -/
structure World (F : Type) where
  heap : Heap F
  canvas : TCmsCanvas
  calls : List RootCall

/-- The method `TCmsCanvas::Initialize`. -/
def TCmsCanvas.Initialize (_c : TCmsCanvas) : TCmsCanvas :=
  { CMS_logo := none, pad_logo := none }

/-- The constructor of `TCmsCanvas`: the members hold indeterminate values `raw` until
the body runs `Initialize`. -/
def TCmsCanvas.construct {F : Type} (h : Heap F) (raw : TCmsCanvas) : World F :=
  { heap := h, canvas := raw.Initialize, calls := [] }

/-- The method `TCmsCanvas::AddCmsLogo`. -/
def AddCmsLogo {F : Type} (w : World F) (x0 y0 x1 y1 : F) (logofile : String) :
    Except Fault (World F) := do
  let h1 ← w.heap.deleteIfSet w.canvas.CMS_logo
  let (image, h2) := h1.alloc (.TASImage logofile)
  let h3 ← h2.deleteIfSet w.canvas.pad_logo
  let (pad, h4) := h3.alloc (.TPad "logo" "logo" x0 y0 x1 y1)
  pure { heap := h4
         canvas := { CMS_logo := some image, pad_logo := some pad }
         calls := w.calls ++ [.padDraw pad, .padCd pad, .imageDraw image "X",
           .padModified pad, .oldpadCd] }

/-- The destructor of `TCmsCanvas`; what is left is the free store. -/
def TCmsCanvas.destroy {F : Type} (w : World F) : Except Fault (Heap F) := do
  let h1 ← w.heap.deleteIfSet w.canvas.CMS_logo
  let h2 ← h1.deleteIfSet w.canvas.pad_logo
  pure h2

/-- The arguments of one call of `AddCmsLogo`. -/
structure LogoArgs (F : Type) where
  x0 : F
  y0 : F
  x1 : F
  y1 : F
  logofile : String

/-- A sequence of `AddCmsLogo` calls on one wrapper, stopping at the first fault. -/
def addCmsLogos {F : Type} : World F → List (LogoArgs F) → Except Fault (World F)
  | w, [] => .ok w
  | w, a :: rest =>
    match AddCmsLogo w a.x0 a.y0 a.x1 a.y1 a.logofile with
    | .ok w1 => addCmsLogos w1 rest
    | .error e => .error e

/-- Construct a wrapper, call `AddCmsLogo` once per element of `calls`, destroy it. -/
def lifeCycle {F : Type} (h : Heap F) (raw : TCmsCanvas) (calls : List (LogoArgs F)) :
    Except Fault (Heap F) :=
  match addCmsLogos (TCmsCanvas.construct h raw) calls with
  | .ok w => TCmsCanvas.destroy w
  | .error e => .error e

/-- Identities in the free store refer to objects that were created. -/
def Heap.WF {F : Type} (h : Heap F) : Prop :=
  (∀ p ∈ h.live, p < h.objs.length) ∧ (∀ p ∈ h.deleted, p < h.objs.length)

/-! ## Vocabulary of the specification -/

/-- The string `s` contains the string `pat`. -/
def Contains (pat s : String) : Prop := ∃ pre post : String, s = pre ++ pat ++ post

/-- Splitting `s` at its first `sep` gives `p` before and `v` after the separator. -/
def FirstSplit (sep s p v : String) : Prop :=
  s = p ++ sep ++ v ∧ ∀ p1 v1 : String, s = p1 ++ sep ++ v1 → p.length ≤ p1.length

/-- The part `p` before the separator and the part `v` after it, for a name that
contains `"::"` or `"."`: split at the first `"::"` if there is one, otherwise at
the first `"."`. -/
def SplitsAs (s p v : String) : Prop :=
  FirstSplit "::" s p v ∨ (¬ Contains "::" s ∧ FirstSplit "." s p v)

/-- The member names of the palette called `p`; no names for any other `p`. -/
def memberNames (p : String) : List String :=
  if p = "p6" then ["kBlue", "kYellow", "kRed", "kGrape", "kGray", "kViolet"]
  else if p = "p8" then
    ["kBlue", "kOrange", "kRed", "kPink", "kGreen", "kCyan", "kAzure", "kGray"]
  else if p = "p10" then
    ["kBlue", "kYellow", "kRed", "kGray", "kViolet", "kBrown", "kOrange", "kGreen",
      "kAsh", "kCyan"]
  else []

/-- The colour definitions written in the source for the palette called `p`. -/
def hexCodes (p : String) : List String :=
  if p = "p6" then ["#5790fc", "#f89c20", "#e42536", "#964a8b", "#9c9ca1", "#7a21dd"]
  else if p = "p8" then
    ["#1845fb", "#ff5e02", "#c91f16", "#c849a9", "#adad7d", "#86c8dd", "#578dff",
      "#656364"]
  else if p = "p10" then
    ["#3f90da", "#ffa90e", "#bd1f01", "#94a4a2", "#832db6", "#a96b59", "#e76300",
      "#b9ac70", "#717581", "#92dadd"]
  else []

/-- ROOT tells the colours of one palette apart: from 6.34 on the enumerators of a
palette are pairwise different, before that `TColor::GetColor` gives different codes
to the different definitions of a palette. -/
def Root.SeparatesColours (R : Root) : Prop :=
  (R.VERSION_CODE ≥ ROOT_VERSION 6 34 0 →
    [R.kP6Blue, R.kP6Yellow, R.kP6Red, R.kP6Grape, R.kP6Gray, R.kP6Violet].Nodup ∧
    [R.kP8Blue, R.kP8Orange, R.kP8Red, R.kP8Pink, R.kP8Green, R.kP8Cyan, R.kP8Azure,
      R.kP8Gray].Nodup ∧
    [R.kP10Blue, R.kP10Yellow, R.kP10Red, R.kP10Gray, R.kP10Violet, R.kP10Brown,
      R.kP10Orange, R.kP10Green, R.kP10Ash, R.kP10Cyan].Nodup) ∧
  (¬ R.VERSION_CODE ≥ ROOT_VERSION 6 34 0 →
    ∀ p ∈ ["p6", "p8", "p10"], ∀ a ∈ hexCodes p, ∀ b ∈ hexCodes p,
      R.GetColor a = R.GetColor b → a = b)

/-- The objects created by a sequence of `AddCmsLogo` calls, in the order of their
creation: for each call its image, then its pad. -/
def createdBy {F : Type} : List (LogoArgs F) → List (Obj F)
  | [] => []
  | a :: rest =>
    .TASImage a.logofile :: .TPad "logo" "logo" a.x0 a.y0 a.x1 a.y1 :: createdBy rest

/-! ## A sample environment, to instantiate the theorems -/

/-- The value of a hexadecimal digit (0 for any other character). -/
def hexDigit (c : Char) : Nat :=
  if c.isDigit then c.toNat - 48
  else if 97 ≤ c.toNat ∧ c.toNat ≤ 102 then c.toNat - 87
  else 0

/-- A ROOT 6.30 in which the basic enumerators have the values of `Rtypes.h`, a colour
given in hexadecimal gets the number its digits spell, and the Petroff enumerators,
which that version lacks, are numbered from 101. -/
def sampleRoot : Root where
  VERSION_CODE := ROOT_VERSION 6 30 4
  VERSION_MAJOR := 6
  VERSION_MINOR := 30
  GetColor := fun s => Int.ofNat (s.data.foldl (fun n c => 16 * n + hexDigit c) 0)
  GetColorByName := fun _ => -1
  kWhite := 0
  kBlack := 1
  kGray := 920
  kRed := 632
  kGreen := 416
  kBlue := 600
  kYellow := 400
  kMagenta := 616
  kCyan := 432
  kOrange := 800
  kSpring := 820
  kTeal := 840
  kAzure := 860
  kViolet := 880
  kPink := 900
  kP6Blue := 101
  kP6Yellow := 102
  kP6Red := 103
  kP6Grape := 104
  kP6Gray := 105
  kP6Violet := 106
  kP8Blue := 107
  kP8Orange := 108
  kP8Red := 109
  kP8Pink := 110
  kP8Green := 111
  kP8Cyan := 112
  kP8Azure := 113
  kP8Gray := 114
  kP10Blue := 115
  kP10Yellow := 116
  kP10Red := 117
  kP10Gray := 118
  kP10Violet := 119
  kP10Brown := 120
  kP10Orange := 121
  kP10Green := 122
  kP10Ash := 123
  kP10Cyan := 124

/-- The sample environment moved to ROOT 6.32, where `TColor::GetColorByName` exists:
it knows the basic colours by their names and answers -1 for any other name. -/
def sampleRoot632 : Root :=
  { sampleRoot with
    VERSION_CODE := ROOT_VERSION 6 32 0
    VERSION_MINOR := 32
    GetColorByName := fun name =>
      if name = "kWhite" then 0 else if name = "kBlack" then 1
      else if name = "kGray" then 920 else if name = "kRed" then 632
      else if name = "kGreen" then 416 else if name = "kBlue" then 600
      else if name = "kYellow" then 400 else if name = "kMagenta" then 616
      else if name = "kCyan" then 432 else if name = "kOrange" then 800
      else if name = "kSpring" then 820 else if name = "kTeal" then 840
      else if name = "kAzure" then 860 else if name = "kViolet" then 880
      else if name = "kPink" then 900 else -1 }

/-- An empty free store. -/
def sampleHeap : Heap Nat := { objs := [], live := [], deleted := [] }

/-- Two calls of `AddCmsLogo` with different logo files. -/
def sampleCalls : List (LogoArgs Nat) :=
  [{ x0 := 0, y0 := 0, x1 := 1, y1 := 1, logofile := "CMS-BW-Label.png" },
   { x0 := 0, y0 := 0, x1 := 1, y1 := 1, logofile := "CMS-Color-Label.png" }]

/-! ## The descriptor globals (`cmsstyle.H`, lines 37-71 and 139-147) -/

/-- The namespace-scope variables of `cmsstyle.H`. A `Double_t` is a `Float`, a
`Font_t` an `Int`, the pointer `cmsStyle` an optional identity with `none` for
`nullptr`. -/
structure Globals where
  cms_lumi : String
  cms_energy : String
  cmsText : String
  extraText : String
  cmsStyle : Option Nat
  usingPalette2D : List Int
  lumiTextSize : Float
  lumiTextOffset : Float
  cmsTextSize : Float
  cmsTextOffsetX : Float
  useCmsLogo : String
  cmsTextFont : Int
  extraTextFont : Int
  additionalInfoFont : Int
  additionalInfo : List String
  extraOverCmsTextSize : Float

/-- The state made by the initialisers of lines 37-62, before any function runs. -/
def Globals.initial : Globals where
  cms_lumi := "Run 2, 138 fb^\x7b#minus1\x7d"
  cms_energy := "13 TeV"
  cmsText := "CMS"
  extraText := "Preliminary"
  cmsStyle := none
  usingPalette2D := []
  lumiTextSize := 0.6
  lumiTextOffset := 0.2
  cmsTextSize := 0.75
  cmsTextOffsetX := 0
  useCmsLogo := ""
  cmsTextFont := 61
  extraTextFont := 52
  additionalInfoFont := 42
  additionalInfo := []
  extraOverCmsTextSize := 0.76

/-- The function `getCMSStyle`. -/
def getCMSStyle (g : Globals) : Option Nat := g.cmsStyle

/-- The function `AppendAdditionalInfo`: `additionalInfo.push_back(text)`. -/
def AppendAdditionalInfo (g : Globals) (text : String) : Globals :=
  { g with additionalInfo := g.additionalInfo ++ [text] }

/-! ## The property dispatcher (`cmsstyle.H`, lines 212-221)

The sources hold the declaration of `setRootObjectProperties` and its documentation,
not its body. -/

/-- Modelled from the spec: what the missing body of `setRootObjectProperties` rests on
and the sources do not give. `supported` lists the property names handled by the fixed
chain, in the order of its branches; `call m x` is the effect of `obj->m(x)` on the
state `O` of an object; `unsupported` is what the chain does with a key that none of
its branches handles. `V` stands for `Double_t`. -/
structure Setters (O V : Type) where
  supported : List String
  call : String → V → O → O
  unsupported : String → V → O → O

/-- Modelled from the spec: one pass through the if/else chain of the missing body of
`setRootObjectProperties`, for the entry `key ↦ x` of the configuration. The branch of
the property `K` takes the method name `"Set" ++ K` and, the `"Set"` part being
optional, `K` itself, and calls the setter of the object. -/
def setRootObjectProperty {O V : Type} (S : Setters O V) (obj : O) (key : String)
    (x : V) : O :=
  match S.supported.find? (fun K => key = "Set" ++ K ∨ key = K) with
  | some K => S.call ("Set" ++ K) x obj
  | none => S.unsupported key x obj

/-- Modelled from the spec: the missing body of `setRootObjectProperties`, a dispatcher
that maps each string key of the configuration to a call of a setter of the object.
`confs` lists the entries of the `std::map` in the order of its iteration. -/
def setRootObjectProperties {O V : Type} (S : Setters O V) (obj : O)
    (confs : List (String × V)) : O :=
  confs.foldl (fun o kv => setRootObjectProperty S o kv.1 kv.2) obj

/-- A dispatcher for the four properties named in the examples of `cmsstyle.H`, on an
object that records the calls made on it. -/
def sampleSetters : Setters (List (String × Int)) Int where
  supported := ["FillColor", "FillStyle", "TextColor", "FontSize"]
  call := fun m x o => o ++ [(m, x)]
  unsupported := fun _ _ o => o

/-! ## Lemmas on `find` and `substr` -/

theorem findAt_absent (pat : List Char) (hne : pat ≠ []) :
    ∀ (s : List Char) (pos : Nat), ¬ pat <:+: s → findAt pat s pos = npos := by
  intro s
  induction s with
  | nil => intro pos _; simp [findAt, hne]
  | cons c cs ih =>
    intro pos h
    have h1 : ¬ pat <+: c :: cs := fun hp => h hp.isInfix
    have h2 : ¬ pat <:+: cs := fun hp => h (List.infix_cons hp)
    rw [findAt, if_neg (by simpa [ List.isPrefixOf_iff_prefix] using h1)]
    exact ih (pos + 1) h2

theorem findAt_first (pat post : List Char) (hne : pat ≠ []) :
    ∀ (pre : List Char) (pos : Nat),
      (∀ j, j < pre.length → ¬ pat <+: (pre ++ pat ++ post).drop j) →
      findAt pat (pre ++ pat ++ post) pos = pos + pre.length := by
  intro pre
  induction pre with
  | nil =>
    intro pos _
    obtain ⟨c, cs, rfl⟩ := List.exists_cons_of_ne_nil hne
    have : (c :: cs).isPrefixOf (c :: (cs ++ post)) = true := by
      rw [ List.isPrefixOf_iff_prefix]; exact ⟨post, rfl⟩
    simp [findAt, this]
  | cons a pre ih =>
    intro pos h
    have key : (a :: pre) ++ pat ++ post = a :: (pre ++ pat ++ post) := rfl
    have h0 := h 0 (by simp)
    rw [key] at h0 ⊢
    simp only [List.drop_zero] at h0
    rw [findAt, if_neg (by simpa [ List.isPrefixOf_iff_prefix] using h0)]
    rw [ih (pos + 1) (fun j hj => by simpa using h (j + 1) (by simpa using hj))]
    simp only [List.length_cons]; omega

theorem contains_iff_isInfix (pat s : String) : Contains pat s ↔ pat.data <:+: s.data := by
  constructor
  · rintro ⟨pre, post, rfl⟩
    exact ⟨pre.data, post.data, by simp [String.data_append]⟩
  · rintro ⟨a, b, h⟩
    exact ⟨⟨a⟩, ⟨b⟩, String.ext (by simp [String.data_append, h])⟩

theorem find_absent (s pat : String) (hne : pat ≠ "") (h : ¬ Contains pat s) :
    find s pat = npos := by
  unfold find
  apply findAt_absent
  · intro hd; exact hne (String.ext (by simpa using hd))
  · rwa [← contains_iff_isInfix]

theorem length_data_eq (s : String) : s.length = s.data.length := rfl

theorem find_firstSplit (sep s p v : String) (hne : sep ≠ "") (h : FirstSplit sep s p v) :
    find s sep = p.length := by
  obtain ⟨rfl, hmin⟩ := h
  have hd : sep.data ≠ [] := fun hd => hne (String.ext (by simpa using hd))
  unfold find
  simp only [String.data_append]
  rw [findAt_first _ _ hd]
  · rw [length_data_eq]; omega
  · intro j hj hpre
    obtain ⟨t, ht⟩ := hpre
    have hs : p.data ++ sep.data ++ v.data
        = (p.data ++ sep.data ++ v.data).take j ++ sep.data ++ t := by
      rw [List.append_assoc _ sep.data t, ht, List.take_append_drop]
    have := hmin ⟨(p.data ++ sep.data ++ v.data).take j⟩ ⟨t⟩
      (String.ext (by simpa only [String.data_append] using hs))
    rw [length_data_eq, length_data_eq] at this
    simp only [List.length_take, List.length_append] at this
    omega

theorem firstSplit_length (sep s p v : String) (h : FirstSplit sep s p v) :
    s.length = p.length + sep.length + v.length := by
  obtain ⟨rfl, _⟩ := h
  simp only [String.length_append]

theorem substrFrom_split (sep p v : String) (h : v.length ≤ npos) :
    substrFrom (p ++ sep ++ v) (p.length + sep.length) = .ok v := by
  unfold substrFrom substr
  rw [if_neg (by simp only [String.length_append]; omega)]
  congr 1
  apply String.ext
  have : p.length + sep.length = (p.data ++ sep.data).length := by
    simp only [length_data_eq, List.length_append]
  simp only [String.data_append]
  rw [this, List.drop_left]
  exact List.take_of_length_le h

theorem substr_split (sep p v : String) :
    substr (p ++ sep ++ v) 0 p.length = .ok p := by
  unfold substr
  rw [if_neg (by omega)]
  congr 1
  apply String.ext
  simp only [String.data_append, List.drop_zero, List.append_assoc, length_data_eq,
    List.take_left]

/-- Where the separating `"::"` is the first one and the name is shorter than
`npos`, the palette branch runs on the two parts. -/
theorem getPettroffColor_dcolon (R : Root) (s p v : String) (hlen : s.length < npos)
    (h : FirstSplit "::" s p v) :
    splitPositions s = (p.length, p.length + 2) ∧
      getPettroffColor R s = .ok (paletteColor R p v) := by
  have hl := firstSplit_length _ _ _ _ h
  have hf := find_firstSplit "::" s p v (by decide) h
  have h2 : ("::" : String).length = 2 := rfl
  have hn : npos = 18446744073709551615 := by decide
  have hsp : splitPositions s = (p.length, p.length + 2) := by
    unfold splitPositions
    simp only [hf]
    rw [if_pos (by omega)]
    have : (p.length + 2) % SIZE_MOD = p.length + 2 :=
      Nat.mod_eq_of_lt (by unfold SIZE_MOD; omega)
    rw [this]
  refine ⟨hsp, ?_⟩
  unfold getPettroffColor
  rw [hsp]
  obtain ⟨rfl, _⟩ := h
  have e1 := substrFrom_split "::" p v (by omega)
  rw [h2] at e1
  simp only [gt_iff_lt, Nat.add_pos_iff_pos_or_pos, Nat.ofNat_pos, or_true, if_true]
  rw [e1, substr_split]
  rfl

/-- Where there is no `"::"`, the separating `"."` is the first one and the name is
shorter than `npos`, the palette branch runs on the two parts. -/
theorem getPettroffColor_dot (R : Root) (s p v : String) (hlen : s.length < npos)
    (hno : ¬ Contains "::" s) (h : FirstSplit "." s p v) :
    splitPositions s = (p.length, p.length + 1) ∧
      getPettroffColor R s = .ok (paletteColor R p v) := by
  have hl := firstSplit_length _ _ _ _ h
  have hf := find_firstSplit "." s p v (by decide) h
  have hf0 := find_absent s "::" (by decide) hno
  have h2 : ("." : String).length = 1 := rfl
  have hn : npos = 18446744073709551615 := by decide
  have hsp : splitPositions s = (p.length, p.length + 1) := by
    unfold splitPositions
    simp only [hf0, hf]
    rw [if_neg (by simp)]
    have : (p.length + 1) % SIZE_MOD = p.length + 1 :=
      Nat.mod_eq_of_lt (by unfold SIZE_MOD; omega)
    rw [this]
  refine ⟨hsp, ?_⟩
  unfold getPettroffColor
  rw [hsp]
  obtain ⟨rfl, _⟩ := h
  have e1 := substrFrom_split "." p v (by omega)
  rw [h2] at e1
  simp only [gt_iff_lt, Nat.add_pos_iff_pos_or_pos, Nat.one_pos, or_true, if_true]
  rw [e1, substr_split]
  rfl

theorem paletteColor_unidentified (R : Root) (p v : String) (h : v ∉ memberNames p) :
    paletteColor R p v = R.kBlack := by
  unfold memberNames at h
  unfold paletteColor
  by_cases h6 : p = "p6"
  · rw [if_pos h6] at h ⊢
    simp only [List.mem_cons, List.mem_singleton, not_or] at h
    simp only [h, if_false]
  · rw [if_neg h6] at h ⊢
    by_cases h8 : p = "p8"
    · rw [if_pos h8] at h ⊢
      simp only [List.mem_cons, List.mem_singleton, not_or] at h
      simp only [h, if_false]
    · rw [if_neg h8] at h ⊢
      by_cases h10 : p = "p10"
      · rw [if_pos h10] at h ⊢
        simp only [List.mem_cons, List.mem_singleton, not_or] at h
        simp only [h, if_false]
      · rw [if_neg h10]

theorem memberNames_other (p : String) (h : p ≠ "p6" ∧ p ≠ "p8" ∧ p ≠ "p10") :
    memberNames p = [] := by
  unfold memberNames
  rw [if_neg h.1, if_neg h.2.1, if_neg h.2.2]

theorem firstSplit_of_head_not_mem (c : Char) (cs : List Char) (sep p v : String)
    (hsep : sep.data = c :: cs) (hc : c ∉ p.data) : FirstSplit sep (p ++ sep ++ v) p v := by
  refine ⟨rfl, fun p1 v1 h => ?_⟩
  by_contra hlt
  have hlt : p1.data.length < p.data.length := by
    simpa only [length_data_eq, not_le] using hlt
  have hd := congrArg String.data h
  simp only [String.data_append, hsep, List.append_assoc] at hd
  have hl := congrArg (fun l => l[p1.data.length]?) hd
  simp only [List.getElem?_append_left hlt] at hl
  rw [List.getElem?_append_right (le_refl _)] at hl
  simp only [Nat.sub_self, List.cons_append, List.getElem?_cons_zero] at hl
  exact hc (List.getElem?_mem hl)

theorem not_contains_of_head_not_mem (c : Char) (cs : List Char) (sep s : String)
    (hsep : sep.data = c :: cs) (hc : c ∉ s.data) : ¬ Contains sep s := by
  rw [contains_iff_isInfix, hsep]
  intro h
  exact hc (h.subset (List.mem_cons_self c cs))

/-! ## Lemmas on `getPettroffColorSet` -/

theorem pushBackLoop_spec (b : List Int) (hb : b.length = 10) :
    ∀ (k i : Nat) (dev : List Int), dev.length = i → 10 ≤ i →
      (∀ j, j < i → dev[j]? = b[j % 10]?) →
      ∃ l, pushBackLoop k i dev = .ok l ∧ l.length = i + k ∧
        ∀ j, j < i + k → l[j]? = b[j % 10]? := by
  intro k
  induction k with
  | zero =>
    intro i dev hlen _ h
    exact ⟨dev, rfl, by simpa using hlen, by simpa using h⟩
  | succ k ih =>
    intro i dev hlen hi h
    have hlt : i % 10 < 10 := Nat.mod_lt _ (by decide)
    have hlt2 : i % 10 < b.length := by omega
    have hget : dev[i % 10]? = some b[i % 10] := by
      rw [h (i % 10) (by omega), Nat.mod_mod, List.getElem?_eq_getElem hlt2]
    obtain ⟨l, h1, h2, h3⟩ := ih (i + 1) (dev ++ [b[i % 10]]) (by simp [hlen]) (by omega)
      (by
        intro j hj
        by_cases hji : j < i
        · rw [List.getElem?_append_left (by omega)]
          exact h j hji
        · have hje : j = i := by omega
          subst hje
          rw [List.getElem?_append_right (by omega)]
          simp [hlen, List.getElem?_eq_getElem hlt2])
    refine ⟨l, ?_, by omega, fun j hj => h3 j (by omega)⟩
    rw [pushBackLoop, hget]
    exact h1

theorem take_eq_of_getElem? (b l : List Int) (n : Nat) (hb : b.length = n)
    (h : ∀ j, j < n → l[j]? = b[j]?) : l.take n = b := by
  apply List.ext_getElem?
  intro j
  by_cases hj : j < n
  · rw [List.getElem?_take_of_lt hj]
    exact h j hj
  · rw [List.getElem?_eq_none (by simp; omega), List.getElem?_eq_none (by omega)]

/-- The list returned for 9 or more colours: the 10 colours of p10 repeated up to the
larger of 10 and `ncolors` entries. -/
theorem getPettroffColorSet_p10 (R : Root) (ncolors : Nat) (h : 9 ≤ ncolors) :
    ∃ l, getPettroffColorSet R ncolors = .ok l ∧ l.length = 10 + (ncolors - 10) ∧
      ∀ j, j < 10 + (ncolors - 10) →
        l[j]? = [p10.kBlue R, p10.kYellow R, p10.kRed R, p10.kGray R, p10.kViolet R,
          p10.kBrown R, p10.kOrange R, p10.kGreen R, p10.kAsh R, p10.kCyan R][j % 10]? := by
  unfold getPettroffColorSet
  rw [if_neg (by omega), if_neg (by omega)]
  exact pushBackLoop_spec [p10.kBlue R, p10.kYellow R, p10.kRed R, p10.kGray R,
    p10.kViolet R, p10.kBrown R, p10.kOrange R, p10.kGreen R, p10.kAsh R, p10.kCyan R] rfl
    (ncolors - 10) 10 _ rfl (le_refl _) (fun j hj => by rw [Nat.mod_eq_of_lt hj])

theorem getPettroffColorSet_p6 (R : Root) (ncolors : Nat) (h : ncolors ≤ 6) :
    getPettroffColorSet R ncolors =
      .ok [p6.kBlue R, p6.kYellow R, p6.kRed R, p6.kGrape R, p6.kGray R, p6.kViolet R] := by
  unfold getPettroffColorSet
  rw [if_pos (by omega)]

theorem getPettroffColorSet_p8 (R : Root) (ncolors : Nat) (h : ncolors = 7 ∨ ncolors = 8) :
    getPettroffColorSet R ncolors =
      .ok [p8.kBlue R, p8.kOrange R, p8.kRed R, p8.kPink R, p8.kGreen R, p8.kCyan R,
        p8.kAzure R, p8.kGray R] := by
  unfold getPettroffColorSet
  rw [if_neg (by omega), if_pos (by omega)]

theorem getPettroffColorSet_p10_take (R : Root) (ncolors : Nat) (h : 9 ≤ ncolors) :
    ∃ l, getPettroffColorSet R ncolors = .ok l ∧ ncolors ≤ l.length ∧
      l.take 10 = [p10.kBlue R, p10.kYellow R, p10.kRed R, p10.kGray R, p10.kViolet R,
        p10.kBrown R, p10.kOrange R, p10.kGreen R, p10.kAsh R, p10.kCyan R] := by
  obtain ⟨l, h1, h2, h3⟩ := getPettroffColorSet_p10 R ncolors h
  refine ⟨l, h1, by omega, take_eq_of_getElem? _ l 10 rfl (fun j hj => ?_)⟩
  rw [h3 j (by omega), Nat.mod_eq_of_lt hj]

theorem p6_nodup (R : Root) (hR : R.SeparatesColours) :
    [p6.kBlue R, p6.kYellow R, p6.kRed R, p6.kGrape R, p6.kGray R, p6.kViolet R].Nodup := by
  by_cases hver : R.VERSION_CODE ≥ ROOT_VERSION 6 34 0
  · simp only [p6.kBlue, p6.kYellow, p6.kRed, p6.kGrape, p6.kGray, p6.kViolet, if_pos hver]
    exact (hR.1 hver).1
  · simp only [p6.kBlue, p6.kYellow, p6.kRed, p6.kGrape, p6.kGray, p6.kViolet, if_neg hver]
    exact List.Nodup.map_on (hR.2 hver "p6" (by decide)) (by decide : (hexCodes "p6").Nodup)

theorem p8_nodup (R : Root) (hR : R.SeparatesColours) :
    [p8.kBlue R, p8.kOrange R, p8.kRed R, p8.kPink R, p8.kGreen R, p8.kCyan R, p8.kAzure R,
      p8.kGray R].Nodup := by
  by_cases hver : R.VERSION_CODE ≥ ROOT_VERSION 6 34 0
  · simp only [p8.kBlue, p8.kOrange, p8.kRed, p8.kPink, p8.kGreen, p8.kCyan, p8.kAzure,
      p8.kGray, if_pos hver]
    exact (hR.1 hver).2.1
  · simp only [p8.kBlue, p8.kOrange, p8.kRed, p8.kPink, p8.kGreen, p8.kCyan, p8.kAzure,
      p8.kGray, if_neg hver]
    exact List.Nodup.map_on (hR.2 hver "p8" (by decide)) (by decide : (hexCodes "p8").Nodup)

theorem p10_nodup (R : Root) (hR : R.SeparatesColours) :
    [p10.kBlue R, p10.kYellow R, p10.kRed R, p10.kGray R, p10.kViolet R, p10.kBrown R,
      p10.kOrange R, p10.kGreen R, p10.kAsh R, p10.kCyan R].Nodup := by
  by_cases hver : R.VERSION_CODE ≥ ROOT_VERSION 6 34 0
  · simp only [p10.kBlue, p10.kYellow, p10.kRed, p10.kGray, p10.kViolet, p10.kBrown,
      p10.kOrange, p10.kGreen, p10.kAsh, p10.kCyan, if_pos hver]
    exact (hR.1 hver).2.2
  · simp only [p10.kBlue, p10.kYellow, p10.kRed, p10.kGray, p10.kViolet, p10.kBrown,
      p10.kOrange, p10.kGreen, p10.kAsh, p10.kCyan, if_neg hver]
    exact List.Nodup.map_on (hR.2 hver "p10" (by decide)) (by decide : (hexCodes "p10").Nodup)

theorem sampleRoot_separates : sampleRoot.SeparatesColours := by
  unfold Root.SeparatesColours
  decide

/-! ## Lemmas on the canvas wrapper -/

theorem createdBy_length {F : Type} (calls : List (LogoArgs F)) :
    (createdBy calls).length = 2 * calls.length := by
  induction calls with
  | nil => rfl
  | cons a rest ih => simp only [createdBy, List.length_cons, ih]; omega

/-- The first call of `AddCmsLogo` on a wrapper whose pointers are null deletes
nothing and creates an image and a pad. -/
theorem AddCmsLogo_first {F : Type} (w : World F) (a : LogoArgs F)
    (hc : w.canvas = { CMS_logo := none, pad_logo := none }) :
    ∃ w1, AddCmsLogo w a.x0 a.y0 a.x1 a.y1 a.logofile = .ok w1 ∧
      w1.heap.objs = w.heap.objs ++ createdBy [a] ∧
      w1.canvas = { CMS_logo := some w.heap.objs.length,
                    pad_logo := some (w.heap.objs.length + 1) } ∧
      w1.heap.live = w.heap.live ++ [w.heap.objs.length, w.heap.objs.length + 1] ∧
      w1.heap.deleted = w.heap.deleted := by
  simp [AddCmsLogo, hc, Heap.deleteIfSet, Heap.alloc, createdBy, bind, Except.bind, pure,
    Except.pure]

/-- A later call of `AddCmsLogo` deletes the image and the pad of the call before it
and creates the next two objects. -/
theorem AddCmsLogo_next {F : Type} (w : World F) (a : LogoArgs F) (L0 : List Nat)
    (N : Nat) (hN : w.heap.objs.length = N + 2)
    (hc : w.canvas = { CMS_logo := some N, pad_logo := some (N + 1) })
    (hl : w.heap.live = L0 ++ [N, N + 1]) (hL0 : ∀ p ∈ L0, p < N) :
    ∃ w1, AddCmsLogo w a.x0 a.y0 a.x1 a.y1 a.logofile = .ok w1 ∧
      w1.heap.objs = w.heap.objs ++ createdBy [a] ∧
      w1.canvas = { CMS_logo := some (N + 2), pad_logo := some (N + 3) } ∧
      w1.heap.live = L0 ++ [N + 2, N + 3] ∧
      w1.heap.deleted = w.heap.deleted ++ [N, N + 1] := by
  have hN0 : N ∉ L0 := fun h => Nat.lt_irrefl _ (hL0 N h)
  have hN1 : N + 1 ∉ L0 := fun h => Nat.not_succ_lt_self (hL0 (N + 1) h)
  have e1 : (L0 ++ [N, N + 1]).erase N = L0 ++ [N + 1] := by
    rw [List.erase_append_right _ hN0]; simp
  have e2 : (L0 ++ [N + 1, N + 2]).erase (N + 1) = L0 ++ [N + 2] := by
    rw [List.erase_append_right _ hN1]; simp
  simp [AddCmsLogo, hc, hl, hN, Heap.deleteIfSet, Heap.alloc, Heap.delete, createdBy, bind,
    Except.bind, pure, Except.pure, e1, e2]

theorem range'_two_concat (m k : Nat) :
    List.range' m (2 * k) ++ [m + 2 * k, m + 2 * k + 1] = List.range' m (2 * (k + 1)) := by
  have e : 2 * (k + 1) = 2 * k + 1 + 1 := by omega
  rw [e, List.range'_1_concat, List.range'_1_concat, List.append_assoc]
  rfl

/-- A wrapper that owns the `k`-th pair of objects created above the mark `m` keeps
owning exactly the latest pair through any further calls, all earlier pairs being
deleted in the order of their creation. -/
theorem addCmsLogos_owned {F : Type} (L0 D0 : List Nat) (m : Nat) (hL0 : ∀ p ∈ L0, p < m) :
    ∀ (calls : List (LogoArgs F)) (w : World F) (k : Nat),
      w.heap.objs.length = m + 2 * k + 2 →
      w.canvas = { CMS_logo := some (m + 2 * k), pad_logo := some (m + 2 * k + 1) } →
      w.heap.live = L0 ++ [m + 2 * k, m + 2 * k + 1] →
      w.heap.deleted = D0 ++ List.range' m (2 * k) →
      ∃ w1, addCmsLogos w calls = .ok w1 ∧
        w1.heap.objs = w.heap.objs ++ createdBy calls ∧
        w1.canvas = { CMS_logo := some (m + 2 * (k + calls.length)),
                      pad_logo := some (m + 2 * (k + calls.length) + 1) } ∧
        w1.heap.live = L0 ++ [m + 2 * (k + calls.length), m + 2 * (k + calls.length) + 1] ∧
        w1.heap.deleted = D0 ++ List.range' m (2 * (k + calls.length)) := by
  intro calls
  induction calls with
  | nil =>
    intro w k _ hc hl hd
    exact ⟨w, rfl, by simp [createdBy], by simpa using hc, by simpa using hl,
      by simpa using hd⟩
  | cons a rest ih =>
    intro w k hN hc hl hd
    obtain ⟨w0, hstep, s2, s3, s4, s5⟩ := AddCmsLogo_next w a L0 (m + 2 * k) hN hc hl
      (fun p hp => Nat.lt_of_lt_of_le (hL0 p hp) (Nat.le_add_right _ _))
    obtain ⟨w1, h1, h2, h3, h4, h5⟩ := ih w0 (k + 1)
      (by rw [s2, List.length_append, hN, createdBy_length]
          simp only [List.length_singleton]; omega)
      (by rw [s3, show m + 2 * (k + 1) = m + 2 * k + 2 by omega])
      (by rw [s4, show m + 2 * (k + 1) = m + 2 * k + 2 by omega])
      (by rw [s5, hd, List.append_assoc, range'_two_concat])
    have hk : k + 1 + rest.length = k + (a :: rest).length := by
      simp only [List.length_cons]; omega
    rw [hk] at h3 h4 h5
    refine ⟨w1, ?_, ?_, h3, h4, h5⟩
    · rw [addCmsLogos, hstep]; exact h1
    · rw [h2, s2, List.append_assoc]; rfl

/-- The state of a freshly constructed wrapper after any sequence of `AddCmsLogo`
calls, in closed form. -/
theorem addCmsLogos_construct {F : Type} (h0 : Heap F) (raw : TCmsCanvas)
    (calls : List (LogoArgs F)) (hwf : h0.WF) :
    ∃ w, addCmsLogos (TCmsCanvas.construct h0 raw) calls = .ok w ∧
      w.heap.objs = h0.objs ++ createdBy calls ∧
      (calls = [] → w.canvas = { CMS_logo := none, pad_logo := none } ∧
        w.heap.live = h0.live ∧ w.heap.deleted = h0.deleted) ∧
      (∀ n, calls.length = n + 1 →
        w.canvas = { CMS_logo := some (h0.objs.length + 2 * n),
                     pad_logo := some (h0.objs.length + 2 * n + 1) } ∧
        w.heap.live = h0.live ++ [h0.objs.length + 2 * n, h0.objs.length + 2 * n + 1] ∧
        w.heap.deleted = h0.deleted ++ List.range' h0.objs.length (2 * n)) := by
  cases calls with
  | nil =>
    exact ⟨TCmsCanvas.construct h0 raw, rfl, by simp [createdBy, TCmsCanvas.construct],
      fun _ => ⟨rfl, rfl, rfl⟩, fun n hn => by simp at hn⟩
  | cons a rest =>
    obtain ⟨w0, hstep, s2, s3, s4, s5⟩ :=
      AddCmsLogo_first (TCmsCanvas.construct h0 raw) a rfl
    obtain ⟨w1, h1, h2, h3, h4, h5⟩ := addCmsLogos_owned h0.live h0.deleted h0.objs.length
      hwf.1 rest w0 0
      (by rw [s2, List.length_append, createdBy_length]; rfl)
      (by rw [s3]; rfl)
      (by rw [s4]; rfl)
      (by rw [s5]; simp [TCmsCanvas.construct])
    refine ⟨w1, ?_, ?_, fun hnil => by simp at hnil, fun n hn => ?_⟩
    · rw [addCmsLogos, hstep]; exact h1
    · rw [h2, s2, List.append_assoc]; rfl
    · have hn1 : rest.length = n := by simpa using hn
      rw [hn1, Nat.zero_add] at h3 h4 h5
      exact ⟨h3, h4, h5⟩

/-- The free store left by the whole life of a wrapper, in closed form. -/
theorem lifeCycle_closed {F : Type} (h0 : Heap F) (raw : TCmsCanvas)
    (calls : List (LogoArgs F)) (hwf : h0.WF) :
    ∃ h, lifeCycle h0 raw calls = .ok h ∧ h.objs = h0.objs ++ createdBy calls ∧
      h.live = h0.live ∧
      h.deleted = h0.deleted ++ List.range' h0.objs.length (2 * calls.length) := by
  obtain ⟨w, h1, h2, h3, h4⟩ := addCmsLogos_construct h0 raw calls hwf
  unfold lifeCycle
  rw [h1]
  cases hc : calls with
  | nil =>
    obtain ⟨c1, c2, c3⟩ := h3 hc
    refine ⟨w.heap, ?_, by rw [h2, hc], c2, by simp [c3]⟩
    simp [TCmsCanvas.destroy, c1, Heap.deleteIfSet, bind, Except.bind, pure, Except.pure]
  | cons a rest =>
    obtain ⟨c1, c2, c3⟩ := h4 rest.length (by rw [hc]; rfl)
    have hN0 : h0.objs.length + 2 * rest.length ∉ h0.live :=
      fun h => Nat.not_lt.mpr (Nat.le_add_right _ _) (hwf.1 _ h)
    have hN1 : h0.objs.length + 2 * rest.length + 1 ∉ h0.live :=
      fun h => Nat.not_lt.mpr (Nat.le_add_right _ (2 * rest.length + 1)) (hwf.1 _ h)
    have e1 : (h0.live ++ [h0.objs.length + 2 * rest.length,
        h0.objs.length + 2 * rest.length + 1]).erase (h0.objs.length + 2 * rest.length)
        = h0.live ++ [h0.objs.length + 2 * rest.length + 1] := by
      rw [List.erase_append_right _ hN0]; simp
    have e2 : (h0.live ++ [h0.objs.length + 2 * rest.length + 1]).erase
        (h0.objs.length + 2 * rest.length + 1) = h0.live := by
      rw [List.erase_append_right _ hN1]; simp
    refine ⟨{ objs := w.heap.objs, live := h0.live,
              deleted := h0.deleted ++ List.range' h0.objs.length (2 * (rest.length + 1)) },
      ?_, by rw [← hc]; exact h2, rfl, rfl⟩
    rw [← range'_two_concat, ← List.append_assoc, ← c3]
    simp [TCmsCanvas.destroy, c1, c2, Heap.deleteIfSet, Heap.delete, bind, Except.bind, pure,
      Except.pure, e1, e2]

/-- The objects of call number `k` (counting from 0) sit at places `2 * k` and
`2 * k + 1` of `createdBy`. -/
theorem createdBy_getElem? {F : Type} :
    ∀ (calls : List (LogoArgs F)) (k : Nat) (a : LogoArgs F), calls[k]? = some a →
      (createdBy calls)[2 * k]? = some (.TASImage a.logofile) ∧
      (createdBy calls)[2 * k + 1]? = some (.TPad "logo" "logo" a.x0 a.y0 a.x1 a.y1) := by
  intro calls
  induction calls with
  | nil => intro k a h; simp at h
  | cons c rest ih =>
    intro k a h
    cases k with
    | zero =>
      simp only [List.getElem?_cons_zero, Option.some.injEq] at h
      subst h
      simp [createdBy]
    | succ k =>
      simp only [List.getElem?_cons_succ] at h
      obtain ⟨h1, h2⟩ := ih k a h
      have e : 2 * (k + 1) = 2 * k + 1 + 1 := by omega
      rw [e]
      simp only [createdBy, List.getElem?_cons_succ]
      exact ⟨h1, h2⟩

theorem append_createdBy_getElem? {F : Type} (objs : List (Obj F))
    (calls : List (LogoArgs F)) (k : Nat) (a : LogoArgs F) (h : calls[k]? = some a) :
    (objs ++ createdBy calls)[objs.length + 2 * k]? = some (.TASImage a.logofile) ∧
    (objs ++ createdBy calls)[objs.length + 2 * k + 1]? =
      some (.TPad "logo" "logo" a.x0 a.y0 a.x1 a.y1) := by
  obtain ⟨h1, h2⟩ := createdBy_getElem? calls k a h
  constructor
  · rw [List.getElem?_append_right (by omega), Nat.add_sub_cancel_left]; exact h1
  · rw [List.getElem?_append_right (by omega), Nat.add_assoc, Nat.add_sub_cancel_left]
    exact h2

theorem sampleHeap_wf : sampleHeap.WF := by
  unfold Heap.WF
  decide

theorem count_range'_of_wf {F : Type} (h0 : Heap F) (hwf : h0.WF) (n p : Nat)
    (h1 : h0.objs.length ≤ p) (h2 : p < h0.objs.length + n) :
    (h0.deleted ++ List.range' h0.objs.length n).count p = 1 ∧ p ∉ h0.live := by
  have hd : p ∉ h0.deleted := fun h => Nat.not_lt.mpr h1 (hwf.2 p h)
  have hl : p ∉ h0.live := fun h => Nat.not_lt.mpr h1 (hwf.1 p h)
  refine ⟨?_, hl⟩
  rw [List.count_append, List.count_eq_zero_of_not_mem hd, Nat.zero_add]
  exact List.count_eq_one_of_mem (List.nodup_range' _ _) (List.mem_range'_1.mpr ⟨h1, h2⟩)

/-! ## Lookup of a colour by its name -/

/-- C1: for each of the 24 palette members, `getPettroffColor` applied to
`"<palette>::<member>"` returns exactly the colour code of the constant
`<palette>::<member>`. -/
theorem getPettroffColor_members (R : Root) :
    getPettroffColor R "p6::kBlue" = .ok (p6.kBlue R) ∧
    getPettroffColor R "p6::kYellow" = .ok (p6.kYellow R) ∧
    getPettroffColor R "p6::kRed" = .ok (p6.kRed R) ∧
    getPettroffColor R "p6::kGrape" = .ok (p6.kGrape R) ∧
    getPettroffColor R "p6::kGray" = .ok (p6.kGray R) ∧
    getPettroffColor R "p6::kViolet" = .ok (p6.kViolet R) ∧
    getPettroffColor R "p8::kBlue" = .ok (p8.kBlue R) ∧
    getPettroffColor R "p8::kOrange" = .ok (p8.kOrange R) ∧
    getPettroffColor R "p8::kRed" = .ok (p8.kRed R) ∧
    getPettroffColor R "p8::kPink" = .ok (p8.kPink R) ∧
    getPettroffColor R "p8::kGreen" = .ok (p8.kGreen R) ∧
    getPettroffColor R "p8::kCyan" = .ok (p8.kCyan R) ∧
    getPettroffColor R "p8::kAzure" = .ok (p8.kAzure R) ∧
    getPettroffColor R "p8::kGray" = .ok (p8.kGray R) ∧
    getPettroffColor R "p10::kBlue" = .ok (p10.kBlue R) ∧
    getPettroffColor R "p10::kYellow" = .ok (p10.kYellow R) ∧
    getPettroffColor R "p10::kRed" = .ok (p10.kRed R) ∧
    getPettroffColor R "p10::kGray" = .ok (p10.kGray R) ∧
    getPettroffColor R "p10::kViolet" = .ok (p10.kViolet R) ∧
    getPettroffColor R "p10::kBrown" = .ok (p10.kBrown R) ∧
    getPettroffColor R "p10::kOrange" = .ok (p10.kOrange R) ∧
    getPettroffColor R "p10::kGreen" = .ok (p10.kGreen R) ∧
    getPettroffColor R "p10::kAsh" = .ok (p10.kAsh R) ∧
    getPettroffColor R "p10::kCyan" = .ok (p10.kCyan R) := by
  refine ⟨?_, ?_, ?_, ?_, ?_, ?_, ?_, ?_, ?_, ?_, ?_, ?_, ?_, ?_, ?_, ?_, ?_, ?_, ?_, ?_,
    ?_, ?_, ?_, ?_⟩ <;> rfl

/-- C5: a name that contains `"::"` or `"."`, is shorter than `npos`, and whose part
before the separator is not `"p6"`, `"p8"` or `"p10"`, or whose part after it is not a
member name of that palette, gives `kBlack`; the palette branch is the one taken, and
the result is `kBlack` whatever the by-name lookup of ROOT would answer. -/
theorem getPettroffColor_unidentified (R : Root) (s p v : String)
    (hlen : s.length < npos) (hsplit : SplitsAs s p v)
    (hbad : (p ≠ "p6" ∧ p ≠ "p8" ∧ p ≠ "p10") ∨ v ∉ memberNames p) :
    getPettroffColor R s = .ok R.kBlack ∧ 0 < (splitPositions s).2 ∧
      ∀ f : String → Int,
        getPettroffColor { R with GetColorByName := f } s = .ok R.kBlack := by
  have hv : v ∉ memberNames p := by
    rcases hbad with h | h
    · rw [memberNames_other p h]; exact List.not_mem_nil v
    · exact h
  have key : ∀ R1 : Root, 0 < (splitPositions s).2 ∧
      getPettroffColor R1 s = .ok R1.kBlack := by
    intro R1
    rcases hsplit with h | ⟨hno, h⟩
    · obtain ⟨h1, h2⟩ := getPettroffColor_dcolon R1 s p v hlen h
      rw [h1, h2, paletteColor_unidentified R1 p v hv]
      exact ⟨Nat.succ_pos _, rfl⟩
    · obtain ⟨h1, h2⟩ := getPettroffColor_dot R1 s p v hlen hno h
      rw [h1, h2, paletteColor_unidentified R1 p v hv]
      exact ⟨Nat.succ_pos _, rfl⟩
  exact ⟨(key R).2, (key R).1, fun f => (key { R with GetColorByName := f }).2⟩

/-- Instance of C5 at `"p6::kBlue::x"`, split into `"p6"` and `"kBlue::x"`. -/
theorem getPettroffColor_unidentified_witness :
    SplitsAs "p6::kBlue::x" "p6" "kBlue::x" ∧
    getPettroffColor sampleRoot "p6::kBlue::x" = .ok 1 ∧
    0 < (splitPositions "p6::kBlue::x").2 ∧
    ∀ f : String → Int,
      getPettroffColor { sampleRoot with GetColorByName := f } "p6::kBlue::x" = .ok 1 :=
  ⟨Or.inl (firstSplit_of_head_not_mem ':' [':'] "::" "p6" "kBlue::x" rfl (by decide)),
    getPettroffColor_unidentified sampleRoot "p6::kBlue::x" "p6" "kBlue::x" (by decide)
      (Or.inl (firstSplit_of_head_not_mem ':' [':'] "::" "p6" "kBlue::x" rfl (by decide)))
      (Or.inr (by decide))⟩

/-- A name without `"::"` and without `"."` skips the palette branch and runs the tail
of the function on the name as given. -/
theorem getPettroffColor_skips (R : Root) (s : String)
    (h1 : ¬ Contains "::" s) (h2 : ¬ Contains "." s) :
    splitPositions s = (npos, 0) ∧ getPettroffColor R s = .ok (rootColorByName R s) := by
  have hsp : splitPositions s = (npos, 0) := by
    unfold splitPositions
    simp only [find_absent s "::" (by decide) h1, find_absent s "." (by decide) h2]
    rw [if_neg (by simp)]
    rfl
  refine ⟨hsp, ?_⟩
  unfold getPettroffColor
  rw [hsp]
  rfl

theorem c_str_of_no_nul (s : String) (h : Char.ofNat 0 ∉ s.data) : c_str s = s := by
  unfold c_str
  apply String.ext
  show s.data.takeWhile _ = s.data
  rw [List.takeWhile_eq_self_iff]
  intro c hc
  simpa using fun e : c = Char.ofNat 0 => h (e ▸ hc)

/-- C6, as amended: a name `s` that contains neither `"::"` nor `"."` skips the palette
branch (the not-found position plus one wraps to 0) and is looked up by name. From
ROOT 6.32 on the result is `TColor::GetColorByName` of `s.c_str()`, the part of `s`
before its first NUL, which is the whole of `s` when `s` holds no NUL. Before 6.32 the
result is the basic colour whose name is exactly `s`, and `kBlack` when `s` is none of
the 14 names. -/
theorem getPettroffColor_plain (R : Root) (s : String)
    (h1 : ¬ Contains "::" s) (h2 : ¬ Contains "." s) :
    splitPositions s = (npos, 0) ∧
    (R.VERSION_MAJOR > 6 ∨ (R.VERSION_MINOR ≥ 32 ∧ R.VERSION_MAJOR = 6) →
      getPettroffColor R s = .ok (R.GetColorByName (c_str s)) ∧
      (Char.ofNat 0 ∉ s.data → getPettroffColor R s = .ok (R.GetColorByName s))) ∧
    (¬ (R.VERSION_MAJOR > 6 ∨ (R.VERSION_MINOR ≥ 32 ∧ R.VERSION_MAJOR = 6)) →
      (s = "kWhite" → getPettroffColor R s = .ok R.kWhite) ∧
      (s = "kGray" → getPettroffColor R s = .ok R.kGray) ∧
      (s = "kRed" → getPettroffColor R s = .ok R.kRed) ∧
      (s = "kGreen" → getPettroffColor R s = .ok R.kGreen) ∧
      (s = "kBlue" → getPettroffColor R s = .ok R.kBlue) ∧
      (s = "kYellow" → getPettroffColor R s = .ok R.kYellow) ∧
      (s = "kMagenta" → getPettroffColor R s = .ok R.kMagenta) ∧
      (s = "kCyan" → getPettroffColor R s = .ok R.kCyan) ∧
      (s = "kOrange" → getPettroffColor R s = .ok R.kOrange) ∧
      (s = "kSpring" → getPettroffColor R s = .ok R.kSpring) ∧
      (s = "kTeal" → getPettroffColor R s = .ok R.kTeal) ∧
      (s = "kAzure" → getPettroffColor R s = .ok R.kAzure) ∧
      (s = "kViolet" → getPettroffColor R s = .ok R.kViolet) ∧
      (s = "kPink" → getPettroffColor R s = .ok R.kPink) ∧
      (s ∉ ["kWhite", "kGray", "kRed", "kGreen", "kBlue", "kYellow", "kMagenta", "kCyan",
          "kOrange", "kSpring", "kTeal", "kAzure", "kViolet", "kPink"] →
        getPettroffColor R s = .ok R.kBlack)) := by
  obtain ⟨hsp, hres⟩ := getPettroffColor_skips R s h1 h2
  refine ⟨hsp, fun hver => ?_, fun hver => ?_⟩
  · have e : getPettroffColor R s = .ok (R.GetColorByName (c_str s)) := by
      rw [hres, rootColorByName, if_pos hver]
    exact ⟨e, fun hnul => by rw [e, c_str_of_no_nul s hnul]⟩
  · rw [hres, rootColorByName, if_neg hver]
    refine ⟨?_, ?_, ?_, ?_, ?_, ?_, ?_, ?_, ?_, ?_, ?_, ?_, ?_, ?_, ?_⟩
    any_goals (intro h; subst h; rfl)
    intro h
    simp only [List.mem_cons, List.mem_singleton, not_or] at h
    simp only [h, if_false]

/-- Instance of C6: `"kRed"` is 632 by the hard-coded chain of ROOT 6.30 and by
`TColor::GetColorByName` in ROOT 6.32, and `"kNavy"`, which the chain does not know,
is `kBlack` in ROOT 6.30. -/
theorem getPettroffColor_plain_witness :
    (¬ Contains "::" "kRed" ∧ ¬ Contains "." "kRed") ∧
    splitPositions "kRed" = (npos, 0) ∧
    getPettroffColor sampleRoot "kRed" = .ok 632 ∧
    getPettroffColor sampleRoot632 "kRed" = .ok 632 ∧
    getPettroffColor sampleRoot "kNavy" = .ok 1 := by
  have a1 := not_contains_of_head_not_mem ':' [':'] "::" "kRed" rfl (by decide)
  have a2 := not_contains_of_head_not_mem '.' [] "." "kRed" rfl (by decide)
  have b1 := not_contains_of_head_not_mem ':' [':'] "::" "kNavy" rfl (by decide)
  have b2 := not_contains_of_head_not_mem '.' [] "." "kNavy" rfl (by decide)
  exact ⟨⟨a1, a2⟩, (getPettroffColor_plain sampleRoot "kRed" a1 a2).1,
    ((getPettroffColor_plain sampleRoot "kRed" a1 a2).2.2 (by decide)).2.2.1 rfl,
    ((getPettroffColor_plain sampleRoot632 "kRed" a1 a2).2.1 (by decide)).2 (by decide),
    ((getPettroffColor_plain sampleRoot "kNavy" b1 b2).2.2 (by decide)).2.2.2.2.2.2.2.2.2.2.2.2.2.2
      (by decide)⟩

/-- Counterexample to C6 as first stated: in ROOT 6.32 the name `"kRed"` followed by a
NUL and `"x"` contains neither `"::"` nor `"."`, and `getPettroffColor` gives 632, the
lookup of `"kRed"`, while the lookup of the whole name is -1. -/
theorem getPettroffColor_plain_counterexample :
    "kRed\x00x".data = ['k', 'R', 'e', 'd', Char.ofNat 0, 'x'] ∧
    (¬ Contains "::" "kRed\x00x" ∧ ¬ Contains "." "kRed\x00x") ∧
    (sampleRoot632.VERSION_MAJOR > 6 ∨
      (sampleRoot632.VERSION_MINOR ≥ 32 ∧ sampleRoot632.VERSION_MAJOR = 6)) ∧
    getPettroffColor sampleRoot632 "kRed\x00x" = .ok 632 ∧
    sampleRoot632.GetColorByName "kRed\x00x" = -1 ∧
    getPettroffColor sampleRoot632 "kRed\x00x"
      ≠ .ok (sampleRoot632.GetColorByName "kRed\x00x") := by
  have e1 : getPettroffColor sampleRoot632 "kRed\x00x" = .ok 632 := rfl
  have e2 : sampleRoot632.GetColorByName "kRed\x00x" = -1 := by decide
  refine ⟨by decide,
    ⟨not_contains_of_head_not_mem ':' [':'] "::" "kRed\x00x" rfl (by decide),
    not_contains_of_head_not_mem '.' [] "." "kRed\x00x" rfl (by decide)⟩,
    by decide, e1, e2, fun h => ?_⟩
  rw [e1, e2] at h
  exact absurd (Except.ok.inj h) (by decide)

/-- C7: for parts `p` and `v` free of `':'` and `'.'` (the whole name shorter than
`npos`), the spellings `p::v` and `p.v` are looked up alike. -/
theorem getPettroffColor_spellings (R : Root) (p v : String)
    (hp : ':' ∉ p.data ∧ '.' ∉ p.data) (hv : ':' ∉ v.data ∧ '.' ∉ v.data)
    (hlen : (p ++ "::" ++ v).length < npos) :
    getPettroffColor R (p ++ "::" ++ v) = getPettroffColor R (p ++ "." ++ v) := by
  have hA := firstSplit_of_head_not_mem ':' [':'] "::" p v rfl hp.1
  have hB := firstSplit_of_head_not_mem '.' [] "." p v rfl hp.2
  have hno : ¬ Contains "::" (p ++ "." ++ v) := by
    apply not_contains_of_head_not_mem ':' [':'] "::" _ rfl
    simp only [String.data_append, List.mem_append, not_or]
    exact ⟨⟨hp.1, by decide⟩, hv.1⟩
  have hlen2 : (p ++ "." ++ v).length < npos := by
    simp only [String.length_append] at hlen ⊢
    have e1 : ("::" : String).length = 2 := rfl
    have e2 : ("." : String).length = 1 := rfl
    omega
  rw [(getPettroffColor_dcolon R _ p v hlen hA).2, (getPettroffColor_dot R _ p v hlen2 hno hB).2]

/-- Instance of C7: `"p8::kBlue"` and `"p8.kBlue"` give the same colour. -/
theorem getPettroffColor_spellings_witness :
    getPettroffColor sampleRoot "p8::kBlue" = getPettroffColor sampleRoot "p8.kBlue" :=
  getPettroffColor_spellings sampleRoot "p8" "kBlue" (by decide) (by decide) (by decide)

/-! ## The colour set -/

/-- C2: `getPettroffColorSet` chooses the palette by the requested count: the p6 list
for `ncolors ≤ 6`, the p8 list for 7 and 8, and for `ncolors ≥ 9` a list whose first 10
entries are the p10 list. -/
theorem getPettroffColorSet_palette (R : Root) (ncolors : Nat) :
    (ncolors ≤ 6 → getPettroffColorSet R ncolors =
      .ok [p6.kBlue R, p6.kYellow R, p6.kRed R, p6.kGrape R, p6.kGray R, p6.kViolet R]) ∧
    (ncolors = 7 ∨ ncolors = 8 → getPettroffColorSet R ncolors =
      .ok [p8.kBlue R, p8.kOrange R, p8.kRed R, p8.kPink R, p8.kGreen R, p8.kCyan R,
        p8.kAzure R, p8.kGray R]) ∧
    (9 ≤ ncolors → ∃ l, getPettroffColorSet R ncolors = .ok l ∧
      l.take 10 = [p10.kBlue R, p10.kYellow R, p10.kRed R, p10.kGray R, p10.kViolet R,
        p10.kBrown R, p10.kOrange R, p10.kGreen R, p10.kAsh R, p10.kCyan R]) := by
  refine ⟨getPettroffColorSet_p6 R ncolors, getPettroffColorSet_p8 R ncolors, fun h => ?_⟩
  obtain ⟨l, h1, _, h3⟩ := getPettroffColorSet_p10_take R ncolors h
  exact ⟨l, h1, h3⟩

/-- Instance of C2 at 0, 6, 7, 8, 9 and 25 colours in the sample environment. -/
theorem getPettroffColorSet_palette_witness :
    getPettroffColorSet sampleRoot 0 =
      .ok [5738748, 16292896, 14951734, 9849483, 10263713, 8004061] ∧
    getPettroffColorSet sampleRoot 6 =
      .ok [5738748, 16292896, 14951734, 9849483, 10263713, 8004061] ∧
    getPettroffColorSet sampleRoot 7 =
      .ok [1590779, 16735746, 13180694, 13126057, 11382141, 8833245, 5737983, 6644580] ∧
    getPettroffColorSet sampleRoot 8 =
      .ok [1590779, 16735746, 13180694, 13126057, 11382141, 8833245, 5737983, 6644580] ∧
    (∃ l, getPettroffColorSet sampleRoot 9 = .ok l ∧
      l.take 10 = [4165850, 16754958, 12394241, 9741474, 8596918, 11103065, 15164160,
        12168304, 7435649, 9624285]) ∧
    (∃ l, getPettroffColorSet sampleRoot 25 = .ok l ∧
      l.take 10 = [4165850, 16754958, 12394241, 9741474, 8596918, 11103065, 15164160,
        12168304, 7435649, 9624285]) := by
  obtain ⟨l9, a9, b9⟩ := (getPettroffColorSet_palette sampleRoot 9).2.2 (by decide)
  obtain ⟨l25, a25, b25⟩ := (getPettroffColorSet_palette sampleRoot 25).2.2 (by decide)
  exact ⟨(getPettroffColorSet_palette sampleRoot 0).1 (by decide),
    (getPettroffColorSet_palette sampleRoot 6).1 (by decide),
    (getPettroffColorSet_palette sampleRoot 7).2.1 (by decide),
    (getPettroffColorSet_palette sampleRoot 8).2.1 (by decide),
    ⟨l9, a9, b9⟩, ⟨l25, a25, b25⟩⟩

/-- C3: for `ncolors > 10` and `i < ncolors`, entry `i` of the colour set exists and
equals entry `i mod 10` of the same list, which is colour `i mod 10` of p10. -/
theorem getPettroffColorSet_cyclic (R : Root) (ncolors i : Nat) (hn : 10 < ncolors)
    (hi : i < ncolors) :
    ∃ l c, getPettroffColorSet R ncolors = .ok l ∧ l[i]? = some c ∧
      l[i % 10]? = some c ∧
      [p10.kBlue R, p10.kYellow R, p10.kRed R, p10.kGray R, p10.kViolet R, p10.kBrown R,
        p10.kOrange R, p10.kGreen R, p10.kAsh R, p10.kCyan R][i % 10]? = some c := by
  obtain ⟨l, h1, _, h3⟩ := getPettroffColorSet_p10 R ncolors (by omega)
  have hlt : i % 10 < 10 := Nat.mod_lt _ (by decide)
  have hc := List.getElem?_eq_getElem
    (show i % 10 < [p10.kBlue R, p10.kYellow R, p10.kRed R, p10.kGray R, p10.kViolet R,
      p10.kBrown R, p10.kOrange R, p10.kGreen R, p10.kAsh R, p10.kCyan R].length from hlt)
  refine ⟨l, _, h1, ?_, ?_, hc⟩
  · rw [h3 i (by omega), hc]
  · rw [h3 (i % 10) (by omega), Nat.mod_mod, hc]

/-- Instance of C3: entry 23 of the set of 25 colours is entry 3, the gray of p10. -/
theorem getPettroffColorSet_cyclic_witness :
    (10 < 25 ∧ 23 < 25) ∧
    ∃ l c, getPettroffColorSet sampleRoot 25 = .ok l ∧ l[23]? = some c ∧
      l[23 % 10]? = some c ∧
      [p10.kBlue sampleRoot, p10.kYellow sampleRoot, p10.kRed sampleRoot,
        p10.kGray sampleRoot, p10.kViolet sampleRoot, p10.kBrown sampleRoot,
        p10.kOrange sampleRoot, p10.kGreen sampleRoot, p10.kAsh sampleRoot,
        p10.kCyan sampleRoot][23 % 10]? = some c :=
  ⟨by decide, getPettroffColorSet_cyclic sampleRoot 25 23 (by decide) (by decide)⟩

/-- C4: the list returned by `getPettroffColorSet ncolors` has at least `ncolors`
entries, so every index below `ncolors` can be read. -/
theorem getPettroffColorSet_enough (R : Root) (ncolors : Nat) :
    ∃ l, getPettroffColorSet R ncolors = .ok l ∧ ncolors ≤ l.length ∧
      ∀ i, i < ncolors → ∃ c, l[i]? = some c := by
  have key : ∃ l, getPettroffColorSet R ncolors = .ok l ∧ ncolors ≤ l.length := by
    by_cases h7 : ncolors < 7
    · exact ⟨_, getPettroffColorSet_p6 R ncolors (by omega), by simp; omega⟩
    · by_cases h9 : ncolors < 9
      · exact ⟨_, getPettroffColorSet_p8 R ncolors (by omega), by simp; omega⟩
      · obtain ⟨l, h1, h2, _⟩ := getPettroffColorSet_p10_take R ncolors (by omega)
        exact ⟨l, h1, h2⟩
  obtain ⟨l, h1, h2⟩ := key
  exact ⟨l, h1, h2, fun i hi => ⟨l[i], List.getElem?_eq_getElem (by omega)⟩⟩

/-- C10: in an environment that tells the colours of one palette apart, each palette
has pairwise different colour definitions, the 6 colours of p6, the 8 of p8 and the 10
of p10 are pairwise different, and for `ncolors ≤ 10` the first `ncolors` entries of
the colour set are pairwise different. -/
theorem palettes_distinct (R : Root) (hR : R.SeparatesColours) :
    ((hexCodes "p6").Nodup ∧ (hexCodes "p8").Nodup ∧ (hexCodes "p10").Nodup) ∧
    [p6.kBlue R, p6.kYellow R, p6.kRed R, p6.kGrape R, p6.kGray R, p6.kViolet R].Nodup ∧
    [p8.kBlue R, p8.kOrange R, p8.kRed R, p8.kPink R, p8.kGreen R, p8.kCyan R, p8.kAzure R,
      p8.kGray R].Nodup ∧
    [p10.kBlue R, p10.kYellow R, p10.kRed R, p10.kGray R, p10.kViolet R, p10.kBrown R,
      p10.kOrange R, p10.kGreen R, p10.kAsh R, p10.kCyan R].Nodup ∧
    ∀ ncolors, ncolors ≤ 10 →
      ∃ l, getPettroffColorSet R ncolors = .ok l ∧ (l.take ncolors).Nodup := by
  refine ⟨⟨by decide, by decide, by decide⟩, p6_nodup R hR, p8_nodup R hR, p10_nodup R hR,
    fun ncolors hn => ?_⟩
  by_cases h7 : ncolors < 7
  · exact ⟨_, getPettroffColorSet_p6 R ncolors (by omega),
      (p6_nodup R hR).sublist (List.take_sublist _ _)⟩
  · by_cases h9 : ncolors < 9
    · exact ⟨_, getPettroffColorSet_p8 R ncolors (by omega),
        (p8_nodup R hR).sublist (List.take_sublist _ _)⟩
    · obtain ⟨l, h1, _, h3⟩ := getPettroffColorSet_p10_take R ncolors (by omega)
      refine ⟨l, h1, ?_⟩
      have hsub : (l.take ncolors).Sublist (l.take 10) := by
        have e : l.take ncolors = (l.take 10).take ncolors := by
          rw [List.take_take, Nat.min_eq_left hn]
        rw [e]
        exact List.take_sublist _ _
      rw [h3] at hsub
      exact (p10_nodup R hR).sublist hsub

/-- Instance of C10 in the sample environment. -/
theorem palettes_distinct_witness :
    sampleRoot.SeparatesColours ∧
    [p6.kBlue sampleRoot, p6.kYellow sampleRoot, p6.kRed sampleRoot, p6.kGrape sampleRoot,
      p6.kGray sampleRoot, p6.kViolet sampleRoot].Nodup ∧
    ∃ l, getPettroffColorSet sampleRoot 9 = .ok l ∧ (l.take 9).Nodup :=
  ⟨sampleRoot_separates, (palettes_distinct sampleRoot sampleRoot_separates).2.1,
    (palettes_distinct sampleRoot sampleRoot_separates).2.2.2.2 9 (by decide)⟩

/-! ## Ownership in the canvas wrapper -/

/-- C8: after any sequence of `AddCmsLogo` calls on a freshly constructed wrapper the
calls have all run without fault, the objects created are those of `createdBy` (call
number `k` made the image `m + 2 * k` and the pad `m + 2 * k + 1`, with `m` the number
of objects before), and: with no call both pointers are null and nothing of the
wrapper is alive; after `n + 1` calls the pointers hold the image and the pad of the
last call, these two are the only live objects beyond those alive before, and the
objects of the `n` earlier calls have been deleted, each once. -/
theorem TCmsCanvas_owns_latest {F : Type} (h0 : Heap F) (raw : TCmsCanvas)
    (calls : List (LogoArgs F)) (hwf : h0.WF) :
    ∃ w, addCmsLogos (TCmsCanvas.construct h0 raw) calls = .ok w ∧
      w.heap.objs = h0.objs ++ createdBy calls ∧
      (∀ k a, calls[k]? = some a →
        w.heap.objs[h0.objs.length + 2 * k]? = some (.TASImage a.logofile) ∧
        w.heap.objs[h0.objs.length + 2 * k + 1]? =
          some (.TPad "logo" "logo" a.x0 a.y0 a.x1 a.y1)) ∧
      (calls = [] → w.canvas = { CMS_logo := none, pad_logo := none } ∧
        w.heap.live = h0.live ∧ w.heap.deleted = h0.deleted) ∧
      (∀ n, calls.length = n + 1 →
        w.canvas = { CMS_logo := some (h0.objs.length + 2 * n),
                     pad_logo := some (h0.objs.length + 2 * n + 1) } ∧
        w.heap.live = h0.live ++ [h0.objs.length + 2 * n, h0.objs.length + 2 * n + 1] ∧
        w.heap.deleted = h0.deleted ++ List.range' h0.objs.length (2 * n)) := by
  obtain ⟨w, h1, h2, h3, h4⟩ := addCmsLogos_construct h0 raw calls hwf
  refine ⟨w, h1, h2, fun k a hk => ?_, h3, h4⟩
  rw [h2]
  exact append_createdBy_getElem? h0.objs calls k a hk

/-- Instance of C8: two calls on a wrapper built in the empty free store. -/
theorem TCmsCanvas_owns_latest_witness :
    sampleHeap.WF ∧
    ∃ w, addCmsLogos (TCmsCanvas.construct sampleHeap
        { CMS_logo := some 3, pad_logo := none }) sampleCalls = .ok w ∧
      w.canvas = { CMS_logo := some 2, pad_logo := some 3 } ∧
      w.heap.live = [2, 3] ∧ w.heap.deleted = [0, 1] := by
  obtain ⟨w, h1, _, _, _, h5⟩ := TCmsCanvas_owns_latest sampleHeap
    { CMS_logo := some 3, pad_logo := none } sampleCalls sampleHeap_wf
  exact ⟨sampleHeap_wf, w, h1, h5 1 rfl⟩

/-- C9: constructing a wrapper, calling `AddCmsLogo` `n` times and destroying it runs
without fault, leaves alive exactly what was alive before, and deletes each of the
`2 * n` objects it created exactly once; with `n = 0` both pointers are null and the
destructor deletes nothing. -/
theorem TCmsCanvas_releases_all {F : Type} (h0 : Heap F) (raw : TCmsCanvas)
    (calls : List (LogoArgs F)) (hwf : h0.WF) :
    ∃ h, lifeCycle h0 raw calls = .ok h ∧ h.objs = h0.objs ++ createdBy calls ∧
      h.live = h0.live ∧
      h.deleted = h0.deleted ++ List.range' h0.objs.length (2 * calls.length) ∧
      (∀ p, h0.objs.length ≤ p → p < h0.objs.length + 2 * calls.length →
        h.deleted.count p = 1 ∧ p ∉ h.live) ∧
      (calls = [] →
        (TCmsCanvas.construct h0 raw).canvas = { CMS_logo := none, pad_logo := none } ∧
        h.deleted = h0.deleted) := by
  obtain ⟨h, h1, h2, h3, h4⟩ := lifeCycle_closed h0 raw calls hwf
  refine ⟨h, h1, h2, h3, h4, fun p hp1 hp2 => ?_, fun hnil => ⟨rfl, ?_⟩⟩
  · rw [h4, h3]
    exact count_range'_of_wf h0 hwf _ p hp1 hp2
  · rw [h4, hnil]
    simp

/-- Instance of C9: two calls, then destruction, in the empty free store. -/
theorem TCmsCanvas_releases_all_witness :
    sampleHeap.WF ∧
    ∃ h, lifeCycle sampleHeap { CMS_logo := some 3, pad_logo := none } sampleCalls = .ok h ∧
      h.live = [] ∧ h.deleted = [0, 1, 2, 3] := by
  obtain ⟨h, h1, _, h3, h4, _⟩ := TCmsCanvas_releases_all sampleHeap
    { CMS_logo := some 3, pad_logo := none } sampleCalls sampleHeap_wf
  exact ⟨sampleHeap_wf, h, h1, h3, h4⟩

/-! ## Lemmas on the dispatcher and the descriptor globals -/

theorem find?_of_unique {α : Type} (p : α → Bool) (a : α) :
    ∀ l : List α, a ∈ l → p a = true → (∀ b ∈ l, p b = true → b = a) →
      l.find? p = some a := by
  intro l
  induction l with
  | nil => intro h; simp at h
  | cons c cs ih =>
    intro hmem hp huniq
    by_cases hc : p c = true
    · rw [List.find?_cons_of_pos _ hc, huniq c (List.mem_cons_self c cs) hc]
    · rw [List.find?_cons_of_neg _ hc]
      have hne : a ≠ c := fun e => hc (e ▸ hp)
      exact ih ((List.mem_cons.mp hmem).resolve_left hne) hp
        (fun b hb => huniq b (List.mem_cons_of_mem c hb))

theorem set_append_cancel (a b : String) (h : "Set" ++ a = "Set" ++ b) : a = b := by
  have hd := congrArg String.data h
  simp only [String.data_append] at hd
  exact String.ext (List.append_cancel_left hd)

/-- A key that is the property name `K`, with or without `"Set"` in front, reaches the
branch of `K`, provided no property name of the chain is `"Set"` followed by `K` or
`K` without a leading `"Set"`. -/
theorem setRootObjectProperty_supported {O V : Type} (S : Setters O V) (obj : O)
    (K : String) (x : V) (hK : K ∈ S.supported)
    (hfree : ∀ K1 ∈ S.supported, K1 ≠ "Set" ++ K ∧ K ≠ "Set" ++ K1) :
    setRootObjectProperty S obj ("Set" ++ K) x = S.call ("Set" ++ K) x obj ∧
      setRootObjectProperty S obj K x = S.call ("Set" ++ K) x obj := by
  constructor
  · unfold setRootObjectProperty
    rw [find?_of_unique _ K S.supported hK (by simp)]
    intro b hb hp
    simp only [decide_eq_true_eq] at hp
    rcases hp with h | h
    · exact (set_append_cancel K b h).symm
    · exact absurd h.symm (hfree b hb).1
  · unfold setRootObjectProperty
    rw [find?_of_unique _ K S.supported hK (by simp)]
    intro b hb hp
    simp only [decide_eq_true_eq] at hp
    rcases hp with h | h
    · exact absurd h (hfree b hb).2
    · exact h.symm

theorem foldl_AppendAdditionalInfo (ts : List String) :
    ∀ g : Globals, (ts.foldl AppendAdditionalInfo g).additionalInfo
      = g.additionalInfo ++ ts := by
  induction ts with
  | nil => intro g; simp
  | cons t rest ih =>
    intro g
    rw [List.foldl_cons, ih]
    simp [AppendAdditionalInfo]

theorem getPettroffColorSet_length (R : Root) (ncolors : Nat) :
    ∃ l, getPettroffColorSet R ncolors = .ok l ∧
      l.length = if ncolors ≤ 6 then 6 else if ncolors ≤ 8 then 8
        else if ncolors ≤ 10 then 10 else ncolors := by
  by_cases h6 : ncolors ≤ 6
  · exact ⟨_, getPettroffColorSet_p6 R ncolors h6, by rw [if_pos h6]; rfl⟩
  · by_cases h8 : ncolors ≤ 8
    · exact ⟨_, getPettroffColorSet_p8 R ncolors (by omega),
        by rw [if_neg h6, if_pos h8]; rfl⟩
    · obtain ⟨l, h1, h2, _⟩ := getPettroffColorSet_p10 R ncolors (by omega)
      refine ⟨l, h1, ?_⟩
      rw [if_neg h6, if_neg h8, h2]
      split_ifs <;> omega

/-! ## The dispatcher, the descriptor globals and the size of the colour set -/

/-- C11: for a supported property name `K` and a value `x`, the configuration with the
single entry `"Set" ++ K ↦ x` has the same effect on an object as the one with the
single entry `K ↦ x`, namely the call of the setter `"Set" ++ K` with `x`. -/
theorem setRootObjectProperties_set_optional {O V : Type} (S : Setters O V) (obj : O)
    (K : String) (x : V) (hK : K ∈ S.supported)
    (hfree : ∀ K1 ∈ S.supported, K1 ≠ "Set" ++ K ∧ K ≠ "Set" ++ K1) :
    setRootObjectProperties S obj [("Set" ++ K, x)] = setRootObjectProperties S obj [(K, x)] ∧
      setRootObjectProperties S obj [(K, x)] = S.call ("Set" ++ K) x obj := by
  obtain ⟨h1, h2⟩ := setRootObjectProperty_supported S obj K x hK hfree
  simp only [setRootObjectProperties, List.foldl_cons, List.foldl_nil]
  exact ⟨h1.trans h2.symm, h2⟩

/-- Instance of C11: `"SetTextColor"` and `"TextColor"` with the value 632,
`"SetFillColor"` and `"FillColor"` with the value 2. -/
theorem setRootObjectProperties_set_optional_witness :
    (setRootObjectProperties sampleSetters [] [("SetTextColor", 632)]
        = setRootObjectProperties sampleSetters [] [("TextColor", 632)] ∧
      setRootObjectProperties sampleSetters [] [("TextColor", 632)]
        = [("SetTextColor", 632)]) ∧
    (setRootObjectProperties sampleSetters [] [("SetFillColor", 2)]
        = setRootObjectProperties sampleSetters [] [("FillColor", 2)] ∧
      setRootObjectProperties sampleSetters [] [("FillColor", 2)]
        = [("SetFillColor", 2)]) :=
  ⟨setRootObjectProperties_set_optional sampleSetters [] "TextColor" 632 (by decide)
      (by decide),
    setRootObjectProperties_set_optional sampleSetters [] "FillColor" 2 (by decide)
      (by decide)⟩

/-- C12: `AppendAdditionalInfo t` turns the additional-info list into the previous list
followed by `t` and changes no other global; so the calls with `t1, ..., tn` on the
initial state leave the list `[t1, ..., tn]`. -/
theorem AppendAdditionalInfo_appends (g : Globals) (t : String) (ts : List String) :
    (AppendAdditionalInfo g t).additionalInfo = g.additionalInfo ++ [t] ∧
    ((AppendAdditionalInfo g t).cms_lumi = g.cms_lumi ∧
      (AppendAdditionalInfo g t).cms_energy = g.cms_energy ∧
      (AppendAdditionalInfo g t).cmsText = g.cmsText ∧
      (AppendAdditionalInfo g t).extraText = g.extraText ∧
      (AppendAdditionalInfo g t).useCmsLogo = g.useCmsLogo ∧
      (AppendAdditionalInfo g t).cmsStyle = g.cmsStyle ∧
      (AppendAdditionalInfo g t).usingPalette2D = g.usingPalette2D) ∧
    ((AppendAdditionalInfo g t).cmsTextFont = g.cmsTextFont ∧
      (AppendAdditionalInfo g t).extraTextFont = g.extraTextFont ∧
      (AppendAdditionalInfo g t).additionalInfoFont = g.additionalInfoFont) ∧
    ((AppendAdditionalInfo g t).lumiTextSize = g.lumiTextSize ∧
      (AppendAdditionalInfo g t).lumiTextOffset = g.lumiTextOffset ∧
      (AppendAdditionalInfo g t).cmsTextSize = g.cmsTextSize ∧
      (AppendAdditionalInfo g t).cmsTextOffsetX = g.cmsTextOffsetX ∧
      (AppendAdditionalInfo g t).extraOverCmsTextSize = g.extraOverCmsTextSize) ∧
    (ts.foldl AppendAdditionalInfo Globals.initial).additionalInfo = ts := by
  refine ⟨rfl, ⟨rfl, rfl, rfl, rfl, rfl, rfl, rfl⟩, ⟨rfl, rfl, rfl⟩,
    ⟨rfl, rfl, rfl, rfl, rfl⟩, ?_⟩
  rw [foldl_AppendAdditionalInfo]
  rfl

/-- C13: the colour set has 6 entries for `ncolors ≤ 6`, 8 for 7 and 8, 10 for 9 and
10, and `ncolors` beyond; it is longer than asked for exactly when `ncolors` is one of
0, ..., 5, 7, 9, and never shorter. -/
theorem getPettroffColorSet_exact_length (R : Root) (ncolors : Nat) :
    ∃ l, getPettroffColorSet R ncolors = .ok l ∧
      l.length = (if ncolors ≤ 6 then 6 else if ncolors ≤ 8 then 8
        else if ncolors ≤ 10 then 10 else ncolors) ∧
      (ncolors < l.length ↔ ncolors ≤ 5 ∨ ncolors = 7 ∨ ncolors = 9) ∧
      ncolors ≤ l.length := by
  obtain ⟨l, h1, h2⟩ := getPettroffColorSet_length R ncolors
  refine ⟨l, h1, h2, ?_, ?_⟩ <;> rw [h2] <;> split_ifs <;> omega

/-- C14: the initial state holds the documented defaults: `"CMS"`, `"Preliminary"`,
`"13 TeV"`, the luminosity text of Run 2, no logo file, no additional information, the
fonts 61, 52 and 42, and a null style handle from `getCMSStyle`. -/
theorem Globals_initial_defaults :
    Globals.initial.cmsText = "CMS" ∧
    Globals.initial.extraText = "Preliminary" ∧
    Globals.initial.cms_energy = "13 TeV" ∧
    Globals.initial.cms_lumi = "Run 2, 138 fb^\x7b#minus1\x7d" ∧
    Globals.initial.cms_lumi.data = "Run 2, 138 fb^".data ++ [Char.ofNat 123]
      ++ "#minus1".data ++ [Char.ofNat 125] ∧
    Globals.initial.useCmsLogo = "" ∧
    Globals.initial.additionalInfo = [] ∧
    Globals.initial.cmsTextFont = 61 ∧
    Globals.initial.extraTextFont = 52 ∧
    Globals.initial.additionalInfoFont = 42 ∧
    getCMSStyle Globals.initial = none := by
  refine ⟨rfl, rfl, rfl, rfl, ?_, rfl, rfl, rfl, rfl, rfl, rfl⟩
  decide

end cmsstyle
